import Mathlib

/-
Verification of the order-placement core of the comazon service
(src/app.js).  The store operations (Prisma) are the external
collaborator: they are modelled as explicit state passing over a DB
value, with the transactional unit of work of src/app.js:309-322
modelled as a sequential run of operations that rolls back to the
pre-state on any failure, and record-not-found (Prisma error P2025)
mapped to HTTP 404 by asyncHandler (src/app.js:25-45).
-/

namespace Comazon

/-- Product row of the store: identifier, current price, current stock.
Stock is an integer (it can go negative, since the decrement issued at
src/app.js:299-306 is unconditional). -/
structure Product where
  id : Nat
  price : Int
  stock : Int
  deriving DecidableEq

/-- Modelled from the spec: a line item of the create-order payload.
structs.js (the CreateOrder shape) is not under src/.  Per the spec a
line item names a product identifier and a quantity, and since
src/app.js:313-315 inserts the request line items verbatim as OrderItem
rows, which carry a unit price (spec section 3), a line item also
carries unitPrice. -/
structure OrderItemReq where
  productId : Nat
  unitPrice : Int
  quantity : Int
  deriving DecidableEq

/-- Stored Order row: identifier and owner reference. -/
structure OrderRow where
  id : Nat
  userId : Nat
  deriving DecidableEq

/-- Stored OrderItem row, owned by one order. -/
structure OrderItemRow where
  orderId : Nat
  productId : Nat
  unitPrice : Int
  quantity : Int
  deriving DecidableEq

/-- The persistent state: product, order, order-item and user tables,
plus the next fresh order identifier. -/
structure DB where
  products : List Product
  orders : List OrderRow
  orderItems : List OrderItemRow
  users : List Nat
  nextOrderId : Nat
  deriving DecidableEq

/-- Helper getQuantity of src/app.js:271-274: the quantity of the FIRST
line item naming the product (Array.find).  Total, returning 0 when no
line item matches; both call sites only pass identifiers drawn from the
line items themselves, so the default is unreachable there. -/
def getQuantity (orderItems : List OrderItemReq) (productId : Nat) : Int :=
  ((orderItems.find? (fun it => it.productId == productId)).map
    (fun it => it.quantity)).getD 0

/-- One prisma.product.update of src/app.js:299-306: decrement the stock
of the product with the given identifier by q, unconditionally on the
remaining stock. -/
def decrementStock (pid : Nat) (q : Int) (ps : List Product) : List Product :=
  ps.map (fun p => if p.id == pid then { p with stock := p.stock - q } else p)

/-- Failure of a storage operation: record not found (Prisma P2025), or
an injected storage fault. -/
inductive TxError
  | notFound
  | fault
  deriving DecidableEq

/-- One storage operation of the transaction array at src/app.js:309-322:
the order insert with its nested order-item creates, or one stock
decrement. -/
inductive Op
  | insertOrder (o : OrderRow) (its : List OrderItemRow)
  | dec (pid : Nat) (q : Int)
  deriving DecidableEq

/-- Effect of one storage operation on the state.  A decrement on an
identifier with no matching row fails with notFound (Prisma P2025). -/
def applyOp : Op → DB → Except TxError DB
  | .insertOrder o its, db =>
      .ok { db with
        orders := db.orders ++ [o],
        orderItems := db.orderItems ++ its,
        nextOrderId := db.nextOrderId + 1 }
  | .dec pid q, db =>
      if db.products.any (fun p => p.id == pid) then
        .ok { db with products := decrementStock pid q db.products }
      else
        .error .notFound

/-- Sequential run of the transaction operations (prisma.dollar-transaction
at src/app.js:309-322).  The fault argument injects a storage fault
immediately before the operation at the given index; any failure makes
the whole run fail, and the caller keeps the pre-state (rollback). -/
def runTx (fault : Option Nat) : List Op → Nat → DB → Except TxError DB
  | [], _, db => .ok db
  | op :: rest, i, db =>
      if fault = some i then .error .fault
      else
        match applyOp op db with
        | .ok db2 => runTx fault rest (i + 1) db2
        | .error e => .error e

/-- Outcome of POST /orders as seen by the caller. -/
inductive PostOrderResult
  | created (order : OrderRow) (items : List OrderItemRow)
  | insufficientStock (message : String)
  | notFound
  | serverError
  deriving DecidableEq

/-- HTTP status assigned by asyncHandler (src/app.js:25-45): 201 on
success, 404 for Prisma P2025, and 500 for any other Error — in
particular for the plain Error thrown at src/app.js:282, whose name is
neither StructError nor a Prisma error class. -/
def PostOrderResult.status : PostOrderResult → Nat
  | .created _ _ => 201
  | .insufficientStock _ => 500
  | .notFound => 404
  | .serverError => 500

/-- Admission check of src/app.js:264-279: fetch the product rows whose
identifier occurs among the line items, and require each such row's
stock to be at least the quantity of the FIRST line item naming it. -/
def admissionOk (orderItems : List OrderItemReq) (db : DB) : Bool :=
  (db.products.filter
      (fun p => (orderItems.map (fun it => it.productId)).contains p.id)).all
    (fun p => decide (getQuantity orderItems p.id ≤ p.stock))

/-- Commit phase of POST /orders (src/app.js:297-322): the transaction
array holds the order insert (with nested order-item creates) followed
by one unconditional decrement per OCCURRENCE of a product identifier in
the line items, each by the first matching line item's quantity. -/
def commitPhase (fault : Option Nat) (userId : Nat)
    (orderItems : List OrderItemReq) (db : DB) : PostOrderResult × DB :=
  let productIds := orderItems.map (fun it => it.productId)
  let newOrder : OrderRow := { id := db.nextOrderId, userId := userId }
  let newItems : List OrderItemRow := orderItems.map (fun it =>
    { orderId := db.nextOrderId, productId := it.productId,
      unitPrice := it.unitPrice, quantity := it.quantity })
  let ops := Op.insertOrder newOrder newItems ::
    productIds.map (fun pid => Op.dec pid (getQuantity orderItems pid))
  match runTx fault ops 0 db with
  | .ok db2 => (.created newOrder newItems, db2)
  | .error .notFound => (.notFound, db)
  | .error .fault => (.serverError, db)

/-- POST /orders handler (src/app.js:259-327): admission check on a
stock snapshot, then the atomic commit.  On any error the state is the
unchanged pre-state. -/
def postOrders (fault : Option Nat) (userId : Nat)
    (orderItems : List OrderItemReq) (db : DB) : PostOrderResult × DB :=
  if !(admissionOk orderItems db) then
    (.insufficientStock "Insufficient Stock", db)
  else
    commitPhase fault userId orderItems db

/-- Outcome of GET /orders/:id as seen by the caller. -/
inductive GetOrderResult
  | ok (order : OrderRow) (items : List OrderItemRow) (total : Int)
  | notFound
  deriving DecidableEq

/-- HTTP status of GET /orders/:id: 200 on success, 404 when
findUniqueOrThrow raises P2025 (asyncHandler, src/app.js:35-39). -/
def GetOrderResult.status : GetOrderResult → Nat
  | .ok _ _ _ => 200
  | .notFound => 404

/-- GET /orders/:id (src/app.js:244-257): findUniqueOrThrow with the
orderItems included, then the total computed on this fetch by the reduce
at src/app.js:252-254; no stored total exists or is read. -/
def getOrderById (id : Nat) (db : DB) : GetOrderResult :=
  match db.orders.find? (fun o => o.id == id) with
  | none => .notFound
  | some o =>
      let its := db.orderItems.filter (fun it => it.orderId == id)
      GetOrderResult.ok o its
        (its.foldl (fun acc it => acc + it.unitPrice * it.quantity) 0)

/-- GET /products/:id (src/app.js:203-209): findUnique, NOT OrThrow; a
missing row makes res.send emit status 200 with an empty body. -/
def getProductById (id : Nat) (db : DB) : Nat × Option Product :=
  (200, db.products.find? (fun p => p.id == id))

/-- GET /users/:id (src/app.js:75-84): findUniqueOrThrow, so a missing
row becomes P2025 and asyncHandler answers 404.  Only the status matters
for the claims. -/
def getUserById (id : Nat) (db : DB) : Nat :=
  if db.users.contains id then 200 else 404

/-- PATCH /products/:id (src/app.js:219-227) restricted to a price
update, the only field the claims touch.  It rewrites the product row
and nothing else. -/
def patchProductPrice (pid : Nat) (newPrice : Int) (db : DB) : DB :=
  { db with products := (db.products.map
      (fun p => if p.id == pid then { p with price := newPrice } else p)) }

/-- Stock of the product with the given identifier, none if absent. -/
def stockOf (db : DB) (pid : Nat) : Option Int :=
  (db.products.find? (fun p => p.id == pid)).map (fun p => p.stock)

/-- Closed form of the state after a successful POST /orders commit: the
order row and its item rows are appended, and each product's stock drops
by (number of line-item occurrences of its identifier) times (the first
matching line item's quantity). -/
def commitDB (userId : Nat) (orderItems : List OrderItemReq) (db : DB) : DB :=
  let productIds := orderItems.map (fun it => it.productId)
  { products := db.products.map (fun p =>
      { p with stock :=
          p.stock - (productIds.count p.id : Int) * getQuantity orderItems p.id }),
    orders := db.orders ++ [{ id := db.nextOrderId, userId := userId }],
    orderItems := db.orderItems ++ orderItems.map (fun it =>
      { orderId := db.nextOrderId, productId := it.productId,
        unitPrice := it.unitPrice, quantity := it.quantity }),
    users := db.users,
    nextOrderId := db.nextOrderId + 1 }

/-- Two POST /orders racing on the same stock snapshot: both admission
checks (src/app.js:276-279) read from the shared pre-state before either
transaction commits; the two transactions then serialize.  This is the
interleaving left open because the decrement at src/app.js:299-306 is
not conditioned on sufficiency at commit time. -/
def interleavedPlacement (u1 : Nat) (items1 : List OrderItemReq) (u2 : Nat)
    (items2 : List OrderItemReq) (db : DB) :
    PostOrderResult × PostOrderResult × DB :=
  let ok1 := admissionOk items1 db
  let ok2 := admissionOk items2 db
  let step1 := if ok1 then commitPhase none u1 items1 db
               else (PostOrderResult.insufficientStock "Insufficient Stock", db)
  let step2 := if ok2 then commitPhase none u2 items2 step1.2
               else (PostOrderResult.insufficientStock "Insufficient Stock", step1.2)
  (step1.1, step2.1, step2.2)

/-- A client-error HTTP status (4xx class). -/
def isClientError (s : Nat) : Prop := 400 ≤ s ∧ s < 500

instance (s : Nat) : Decidable (isClientError s) := by
  unfold isClientError
  infer_instance

/-! Helper lemmas about the embedded operations. -/

/-- Decrementing a product's stock never changes which identifiers are
present in the product table. -/
theorem any_id_decrementStock (pid : Nat) (q : Int) (x : Nat) (ps : List Product) :
    (decrementStock pid q ps).any (fun p => p.id == x) = ps.any (fun p => p.id == x) := by
  unfold decrementStock
  rw [List.any_map]
  congr 1
  funext p
  by_cases h : p.id == pid <;> simp [h, Function.comp]

/-- Closed form of running the decrement of src/app.js:299-306 once per
element of a list of product identifiers: each product row loses
(occurrences of its identifier) times (the first matching line item's
quantity). -/
theorem foldl_decrementStock (items : List OrderItemReq) (L : List Nat)
    (ps : List Product) :
    List.foldl (fun acc pid => decrementStock pid (getQuantity items pid) acc) ps L
      = ps.map (fun p =>
          { p with stock :=
              p.stock - (L.count p.id : Int) * getQuantity items p.id }) := by
  induction L generalizing ps with
  | nil =>
      simp only [List.foldl_nil, List.count_nil, Nat.cast_zero, zero_mul, sub_zero]
      exact (List.map_id ps).symm
  | cons pid L ih =>
      rw [List.foldl_cons, ih]
      unfold decrementStock
      rw [List.map_map]
      congr 1
      funext p
      by_cases h : p.id = pid
      · subst h
        simp only [Function.comp_apply, beq_self_eq_true, if_true,
          List.count_cons_self]
        congr 1
        push_cast
        ring
      · have hb : (p.id == pid) = false := by simp [h]
        have hc : (pid :: L).count p.id = L.count p.id :=
          List.count_cons_of_ne h L
        simp only [Function.comp_apply, hb, Bool.false_eq_true, if_false, hc]

/-- Running the transaction tail of decrements succeeds when every listed
identifier has a product row, and yields the folded decrements. -/
theorem runTx_decs_found (items : List OrderItemReq) (L : List Nat) (i : Nat)
    (db : DB)
    (h : ∀ pid ∈ L, db.products.any (fun p => p.id == pid) = true) :
    runTx none (L.map (fun pid => Op.dec pid (getQuantity items pid))) i db
      = .ok { db with products := (List.foldl
          (fun acc pid => decrementStock pid (getQuantity items pid) acc)
          db.products L) } := by
  induction L generalizing i db with
  | nil => rfl
  | cons pid L ih =>
      have hhd := h pid (List.mem_cons_self _ _)
      simp only [List.map_cons, runTx]
      rw [if_neg (by simp)]
      simp only [applyOp, hhd, if_true]
      rw [ih (i + 1)
        { db with products := decrementStock pid (getQuantity items pid) db.products }
        (by
          intro x hx
          simpa [any_id_decrementStock] using h x (List.mem_cons_of_mem _ hx))]
      rw [List.foldl_cons]

/-- Running the transaction tail of decrements fails with notFound (Prisma
P2025) when some listed identifier has no product row. -/
theorem runTx_decs_missing (items : List OrderItemReq) (L : List Nat) (i : Nat)
    (db : DB)
    (h : ∃ pid ∈ L, db.products.any (fun p => p.id == pid) = false) :
    runTx none (L.map (fun pid => Op.dec pid (getQuantity items pid))) i db
      = .error .notFound := by
  induction L generalizing i db with
  | nil =>
      obtain ⟨pid, hmem, _⟩ := h
      exact absurd hmem (List.not_mem_nil _)
  | cons pid L ih =>
      simp only [List.map_cons, runTx]
      rw [if_neg (by simp)]
      by_cases hhd : db.products.any (fun p => p.id == pid) = true
      · simp only [applyOp, hhd, if_true]
        apply ih
        obtain ⟨x, hx, hfalse⟩ := h
        rcases List.mem_cons.mp hx with heq | hx2
        · subst heq
          rw [hhd] at hfalse
          exact absurd hfalse (by simp)
        · exact ⟨x, hx2, by simpa [any_id_decrementStock] using hfalse⟩
      · have hfa : db.products.any (fun p => p.id == pid) = false :=
          Bool.eq_false_iff.mpr hhd
        simp [applyOp, hfa]

/-- Whenever the transaction tail of decrements reports success, the state
it returns is exactly the folded decrements (for ANY fault injection). -/
theorem runTx_decs_ok_eq (fault : Option Nat) (items : List OrderItemReq)
    (L : List Nat) (i : Nat) (db db2 : DB)
    (h : runTx fault (L.map (fun pid => Op.dec pid (getQuantity items pid))) i db
      = .ok db2) :
    db2 = { db with products := (List.foldl
        (fun acc pid => decrementStock pid (getQuantity items pid) acc)
        db.products L) } := by
  induction L generalizing i db with
  | nil =>
      simp only [List.map_nil, runTx, Except.ok.injEq] at h
      exact h.symm
  | cons pid L ih =>
      simp only [List.map_cons, runTx] at h
      by_cases hf : fault = some i
      · rw [if_pos hf] at h
        exact absurd h (by simp)
      · rw [if_neg hf] at h
        by_cases hhd : db.products.any (fun p => p.id == pid) = true
        · simp only [applyOp, hhd, if_true] at h
          rw [ih (i + 1)
            { db with products := decrementStock pid (getQuantity items pid) db.products } h]
          rw [List.foldl_cons]
        · have hfa : db.products.any (fun p => p.id == pid) = false :=
            Bool.eq_false_iff.mpr hhd
          simp [applyOp, hfa] at h

/-- The admission check passes when every fetched product's stock covers
the first matching line item's quantity. -/
theorem admissionOk_of (items : List OrderItemReq) (db : DB)
    (h : ∀ p ∈ db.products,
      (items.map (fun it => it.productId)).contains p.id = true →
      getQuantity items p.id ≤ p.stock) :
    admissionOk items db = true := by
  unfold admissionOk
  rw [List.all_eq_true]
  intro p hp
  rw [List.mem_filter] at hp
  exact decide_eq_true (h p hp.1 hp.2)

/-- The admission check fails when some fetched product's stock is below
the first matching line item's quantity. -/
theorem admissionOk_false_of (items : List OrderItemReq) (db : DB)
    (h : ∃ p ∈ db.products,
      (items.map (fun it => it.productId)).contains p.id = true ∧
      p.stock < getQuantity items p.id) :
    admissionOk items db = false := by
  obtain ⟨p, hp, hc, hlt⟩ := h
  apply Bool.eq_false_iff.mpr
  intro hall
  unfold admissionOk at hall
  rw [List.all_eq_true] at hall
  have := hall p (List.mem_filter.mpr ⟨hp, hc⟩)
  rw [decide_eq_true_eq] at this
  exact absurd this (not_le.mpr hlt)

/-- getQuantity picks the quantity of some line item that names the
product, namely the first one. -/
theorem getQuantity_first (items : List OrderItemReq) (pid : Nat)
    (h : (items.map (fun it => it.productId)).contains pid = true) :
    ∃ it ∈ items, it.productId = pid ∧ getQuantity items pid = it.quantity := by
  have hmem : pid ∈ items.map (fun it => it.productId) := by
    simpa using h
  rw [List.mem_map] at hmem
  obtain ⟨it0, hit0, hpid⟩ := hmem
  have hsome : (items.find? (fun it => it.productId == pid)).isSome := by
    rw [List.find?_isSome]
    exact ⟨it0, hit0, by simp [hpid]⟩
  obtain ⟨itf, hf⟩ := Option.isSome_iff_exists.mp hsome
  refine ⟨itf, List.mem_of_find?_eq_some hf, ?_, ?_⟩
  · have := List.find?_some hf
    simpa using this
  · unfold getQuantity
    rw [hf]
    rfl

/-- When each line item's product has a row, every identifier occurring
among the line items has a row. -/
theorem any_of_exists (items : List OrderItemReq) (db : DB)
    (hex : ∀ it ∈ items, ∃ p ∈ db.products, p.id = it.productId) :
    ∀ pid ∈ items.map (fun it => it.productId),
      db.products.any (fun p => p.id == pid) = true := by
  intro pid hpid
  rw [List.mem_map] at hpid
  obtain ⟨it, hit, hpe⟩ := hpid
  obtain ⟨p, hp, hpeq⟩ := hex it hit
  rw [List.any_eq_true]
  exact ⟨p, hp, by simp [hpeq, hpe]⟩

/-- When every line item's quantity is covered by its product's stock, the
first-matching-line-item quantities are covered too. -/
theorem adm_of_lineitems (items : List OrderItemReq) (db : DB)
    (hq : ∀ it ∈ items, ∀ p ∈ db.products, p.id = it.productId →
      it.quantity ≤ p.stock) :
    ∀ p ∈ db.products,
      (items.map (fun it => it.productId)).contains p.id = true →
      getQuantity items p.id ≤ p.stock := by
  intro p hp hc
  obtain ⟨it, hit, hpid, hgq⟩ := getQuantity_first items p.id hc
  rw [hgq]
  exact hq it hit p hp hpid.symm

/-- Successful commit phase: when every referenced identifier has a row,
the transaction succeeds and produces exactly the commitDB state. -/
theorem commitPhase_found (u : Nat) (items : List OrderItemReq) (db : DB)
    (h : ∀ pid ∈ items.map (fun it => it.productId),
      db.products.any (fun p => p.id == pid) = true) :
    commitPhase none u items db =
      (.created { id := db.nextOrderId, userId := u }
        (items.map (fun it =>
          { orderId := db.nextOrderId, productId := it.productId,
            unitPrice := it.unitPrice, quantity := it.quantity })),
       commitDB u items db) := by
  unfold commitPhase
  simp only [runTx]
  rw [if_neg (by simp)]
  simp only [applyOp]
  rw [runTx_decs_found items _ 1 _ (by intro pid hp; simpa using h pid hp)]
  rw [foldl_decrementStock]
  rfl

/-- Failing commit phase: when some referenced identifier has no row, the
transaction fails with notFound and the caller keeps the pre-state. -/
theorem commitPhase_missing (u : Nat) (items : List OrderItemReq) (db : DB)
    (h : ∃ pid ∈ items.map (fun it => it.productId),
      db.products.any (fun p => p.id == pid) = false) :
    commitPhase none u items db = (.notFound, db) := by
  unfold commitPhase
  simp only [runTx]
  rw [if_neg (by simp)]
  simp only [applyOp]
  rw [runTx_decs_missing items _ 1 _ (by
    obtain ⟨pid, hp, hfa⟩ := h
    exact ⟨pid, hp, by simpa using hfa⟩)]

/-- Case split of the commit phase under an arbitrary fault injection:
either it reports created and the state is exactly commitDB, or it
reports an error and the state is the unchanged pre-state. -/
theorem commitPhase_cases (fault : Option Nat) (u : Nat)
    (items : List OrderItemReq) (db : DB) :
    (commitPhase fault u items db =
        (.created { id := db.nextOrderId, userId := u }
          (items.map (fun it =>
            { orderId := db.nextOrderId, productId := it.productId,
              unitPrice := it.unitPrice, quantity := it.quantity })),
         commitDB u items db))
    ∨ ((∀ o its, (commitPhase fault u items db).1 ≠ .created o its)
      ∧ (commitPhase fault u items db).2 = db) := by
  unfold commitPhase
  simp only [runTx]
  by_cases hf : fault = some 0
  · rw [if_pos hf]
    right
    exact ⟨by intro o its h; exact absurd h (by simp), rfl⟩
  · rw [if_neg hf]
    simp only [applyOp]
    cases hr : runTx fault
        ((items.map (fun it => it.productId)).map
          (fun pid => Op.dec pid (getQuantity items pid))) 1
        { db with
          orders := db.orders ++ [{ id := db.nextOrderId, userId := u }],
          orderItems := db.orderItems ++ (items.map (fun it =>
            { orderId := db.nextOrderId, productId := it.productId,
              unitPrice := it.unitPrice, quantity := it.quantity })),
          nextOrderId := db.nextOrderId + 1 } with
    | ok db2 =>
        left
        rw [runTx_decs_ok_eq fault items _ 1 _ db2 hr]
        rw [foldl_decrementStock]
        rfl
    | error e =>
        right
        cases e
        · exact ⟨by intro o its h; exact absurd h (by simp), rfl⟩
        · exact ⟨by intro o its h; exact absurd h (by simp), rfl⟩

/-- Successful POST /orders: admission passes on the first-matching
quantities and every referenced identifier has a row. -/
theorem postOrders_success (u : Nat) (items : List OrderItemReq) (db : DB)
    (hex : ∀ pid ∈ items.map (fun it => it.productId),
      db.products.any (fun p => p.id == pid) = true)
    (hadm : ∀ p ∈ db.products,
      (items.map (fun it => it.productId)).contains p.id = true →
      getQuantity items p.id ≤ p.stock) :
    postOrders none u items db =
      (.created { id := db.nextOrderId, userId := u }
        (items.map (fun it =>
          { orderId := db.nextOrderId, productId := it.productId,
            unitPrice := it.unitPrice, quantity := it.quantity })),
       commitDB u items db) := by
  unfold postOrders
  rw [admissionOk_of items db hadm]
  simp only [Bool.not_true, Bool.false_eq_true, if_false]
  exact commitPhase_found u items db hex

/-- Total computed by the reduce of src/app.js:252-254 equals the sum of
unit price times quantity over the items. -/
theorem foldl_total (l : List OrderItemRow) (a : Int) :
    l.foldl (fun acc it => acc + it.unitPrice * it.quantity) a
      = a + (l.map (fun it => it.unitPrice * it.quantity)).sum := by
  induction l generalizing a with
  | nil => simp
  | cons hd tl ih =>
      rw [List.foldl_cons, ih, List.map_cons, List.sum_cons]
      ring

/-- PATCH /products/:id rewrites only the product table, so a fetched
order, its items and its derived total are untouched by it. -/
theorem getOrderById_patchPrice (oid pid : Nat) (np : Int) (db : DB) :
    getOrderById oid (patchProductPrice pid np db) = getOrderById oid db := rfl

/-! Claim theorems. -/

/-- C1, as stated, fails on the code: a request with two line items for
product 1, quantities 2 and 3, against stock 10, has every line item's
quantity at most the stock and the placement succeeds, but the
post-commit stock is 6 — not 10 - (2 + 3) = 5 (total requested) and not
10 - 2 = 8 (the line item's own quantity): the handler decrements once
per occurrence using the first line item's quantity (2 + 2). -/
theorem spec_C1_counterexample :
    (postOrders none 7 [⟨1, 10, 2⟩, ⟨1, 10, 3⟩] ⟨[⟨1, 10, 10⟩], [], [], [], 0⟩).1
        = .created ⟨0, 7⟩ [⟨0, 1, 10, 2⟩, ⟨0, 1, 10, 3⟩]
      ∧ stockOf (postOrders none 7 [⟨1, 10, 2⟩, ⟨1, 10, 3⟩]
          ⟨[⟨1, 10, 10⟩], [], [], [], 0⟩).2 1 = some 6
      ∧ (6 : Int) ≠ 10 - (2 + 3)
      ∧ (6 : Int) ≠ 10 - 2 := by decide

/-- C1 (amended): for every order placement request in which every
referenced product identifier has a matching row and every line item's
quantity is at most the referenced product's current stock, the
placement succeeds (order created with its order items) and, after
commit, each product's stock equals its pre-commit stock minus
(number of line-item occurrences of its identifier) times (the first
matching line item's quantity); when each product is named by at most
one line item this is exactly that line item's requested quantity. -/
theorem spec_C1_amended (u : Nat) (items : List OrderItemReq) (db : DB)
    (hex : ∀ it ∈ items, ∃ p ∈ db.products, p.id = it.productId)
    (hq : ∀ it ∈ items, ∀ p ∈ db.products, p.id = it.productId →
      it.quantity ≤ p.stock) :
    postOrders none u items db =
      (.created { id := db.nextOrderId, userId := u }
        (items.map (fun it =>
          { orderId := db.nextOrderId, productId := it.productId,
            unitPrice := it.unitPrice, quantity := it.quantity })),
       commitDB u items db)
    ∧ (postOrders none u items db).2.products
        = db.products.map (fun p =>
            { p with stock := p.stock
                - ((items.map (fun it => it.productId)).count p.id : Int)
                  * getQuantity items p.id }) := by
  have h := postOrders_success u items db (any_of_exists items db hex)
    (adm_of_lineitems items db hq)
  refine ⟨h, ?_⟩
  rw [h]
  rfl

/-- Witness for C1 (amended) at a concrete input: one product with stock
5, one line item of quantity 3; the placement succeeds and the stock
drops to 2. -/
theorem spec_C1_witness :
    postOrders none 7 [⟨1, 10, 3⟩] ⟨[⟨1, 10, 5⟩], [], [], [], 0⟩ =
      (.created { id := 0, userId := 7 }
        (([⟨1, 10, 3⟩] : List OrderItemReq).map (fun it =>
          { orderId := 0, productId := it.productId,
            unitPrice := it.unitPrice, quantity := it.quantity })),
       commitDB 7 [⟨1, 10, 3⟩] ⟨[⟨1, 10, 5⟩], [], [], [], 0⟩)
    ∧ (postOrders none 7 [⟨1, 10, 3⟩] ⟨[⟨1, 10, 5⟩], [], [], [], 0⟩).2.products
        = ([⟨1, 10, 5⟩] : List Product).map (fun p =>
            { p with stock := p.stock
                - ((([⟨1, 10, 3⟩] : List OrderItemReq).map
                    (fun it => it.productId)).count p.id : Int)
                  * getQuantity [⟨1, 10, 3⟩] p.id }) :=
  spec_C1_amended 7 [⟨1, 10, 3⟩] ⟨[⟨1, 10, 5⟩], [], [], [], 0⟩
    (by decide) (by decide)

/-- C2, as stated, fails on the code: one product with stock 5 and one
line item of quantity 9 makes the placement fail, but the plain Error
thrown at src/app.js:282 is mapped by asyncHandler to HTTP 500 — a
server error, not a client error — with the fixed message, which does
not identify the offending product.  The state is unchanged. -/
theorem spec_C2_counterexample :
    (postOrders none 7 [⟨1, 10, 9⟩] ⟨[⟨1, 10, 5⟩], [], [], [], 0⟩).1
        = .insufficientStock "Insufficient Stock"
      ∧ (postOrders none 7 [⟨1, 10, 9⟩] ⟨[⟨1, 10, 5⟩], [], [], [], 0⟩).1.status
          = 500
      ∧ ¬ isClientError
          ((postOrders none 7 [⟨1, 10, 9⟩] ⟨[⟨1, 10, 5⟩], [], [], [], 0⟩).1.status)
      ∧ (postOrders none 7 [⟨1, 10, 9⟩] ⟨[⟨1, 10, 5⟩], [], [], [], 0⟩).2
          = ⟨[⟨1, 10, 5⟩], [], [], [], 0⟩ := by decide

/-- C2 (amended): whenever some fetched (existing, referenced) product's
stock is below the quantity of the FIRST line item naming it, the
placement fails before any mutation with the fixed-message error
Insufficient Stock, reported as HTTP 500 (a server error, with no
product identification), no product's stock changes and no order row
becomes visible; a line item whose identifier duplicates an earlier one
is checked only through the first occurrence's quantity. -/
theorem spec_C2_amended (fault : Option Nat) (u : Nat)
    (items : List OrderItemReq) (db : DB)
    (h : ∃ p ∈ db.products,
      (items.map (fun it => it.productId)).contains p.id = true ∧
      p.stock < getQuantity items p.id) :
    postOrders fault u items db = (.insufficientStock "Insufficient Stock", db)
      ∧ (postOrders fault u items db).1.status = 500 := by
  have hfalse := admissionOk_false_of items db h
  unfold postOrders
  rw [hfalse]
  exact ⟨rfl, rfl⟩

/-- Witness for C2 (amended) at a concrete input: stock 5, requested
quantity 9, no fault injected. -/
theorem spec_C2_witness :
    postOrders none 4 [⟨1, 10, 9⟩] ⟨[⟨1, 10, 5⟩], [], [], [], 0⟩
        = (.insufficientStock "Insufficient Stock", ⟨[⟨1, 10, 5⟩], [], [], [], 0⟩)
      ∧ (postOrders none 4 [⟨1, 10, 9⟩] ⟨[⟨1, 10, 5⟩], [], [], [], 0⟩).1.status
          = 500 :=
  spec_C2_amended none 4 [⟨1, 10, 9⟩] ⟨[⟨1, 10, 5⟩], [], [], [], 0⟩ (by decide)

/-- C3: the order insert, the order-item inserts and all stock decrements
sit in the single transaction array of src/app.js:309-322, so for every
placement and every injected storage fault (the fault argument aborts
the transaction just before the operation with that index — in
particular some 1 aborts after the order insertion and before any stock
decrement), either the caller sees created and the state carries exactly
the order row, its item rows and all the decrements (commitDB), or the
caller sees an error and the state is the untouched pre-state: no order,
no item and no decrement is visible. -/
theorem spec_C3 (fault : Option Nat) (u : Nat) (items : List OrderItemReq)
    (db : DB) :
    (postOrders fault u items db =
        (.created { id := db.nextOrderId, userId := u }
          (items.map (fun it =>
            { orderId := db.nextOrderId, productId := it.productId,
              unitPrice := it.unitPrice, quantity := it.quantity })),
         commitDB u items db))
    ∨ ((∀ o its, (postOrders fault u items db).1 ≠ .created o its)
      ∧ (postOrders fault u items db).2 = db) := by
  unfold postOrders
  by_cases hadm : admissionOk items db = true
  · rw [hadm]
    simp only [Bool.not_true, Bool.false_eq_true, if_false]
    exact commitPhase_cases fault u items db
  · have hfa : admissionOk items db = false := Bool.eq_false_iff.mpr hadm
    rw [hfa]
    simp only [Bool.not_false, if_true]
    right
    exact ⟨by intro o its h; exact absurd h (by simp), by trivial⟩

/-- C4: the claim is the spec's intent but the code lacks the
commit-time stock condition (the decrement at src/app.js:299-306 is
unconditional).  Two placements against one product with stock 5, each
requesting quantity 3, whose admission checks both read the shared
pre-state before either transaction commits, BOTH succeed, the stock is
decremented twice, and the final stock is -1 — not one success, one
InsufficientStockError and final stock 2 as the claim requires. -/
theorem spec_C4_race :
    (interleavedPlacement 1 [⟨1, 10, 3⟩] 2 [⟨1, 10, 3⟩]
        ⟨[⟨1, 10, 5⟩], [], [], [], 0⟩).1
        = .created ⟨0, 1⟩ [⟨0, 1, 10, 3⟩]
      ∧ (interleavedPlacement 1 [⟨1, 10, 3⟩] 2 [⟨1, 10, 3⟩]
          ⟨[⟨1, 10, 5⟩], [], [], [], 0⟩).2.1
          = .created ⟨1, 2⟩ [⟨1, 1, 10, 3⟩]
      ∧ stockOf (interleavedPlacement 1 [⟨1, 10, 3⟩] 2 [⟨1, 10, 3⟩]
          ⟨[⟨1, 10, 5⟩], [], [], [], 0⟩).2.2 1 = some (-1)
      ∧ ¬ (some (-1) = some (2 : Int))
      ∧ ¬ ((0 : Int) ≤ -1) := by decide

/-- C5, as stated, fails on the code: a request referencing BOTH an
out-of-stock existing product (stock 5, quantity 9) and a missing
product (identifier 2) is rejected with the Insufficient Stock error and
HTTP 500, not with a NotFoundError/404 — the admission check runs first
and silently skips identifiers with no row. -/
theorem spec_C5_counterexample :
    (postOrders none 7 [⟨1, 10, 9⟩, ⟨2, 4, 1⟩] ⟨[⟨1, 10, 5⟩], [], [], [], 0⟩).1
        = .insufficientStock "Insufficient Stock"
      ∧ (postOrders none 7 [⟨1, 10, 9⟩, ⟨2, 4, 1⟩]
          ⟨[⟨1, 10, 5⟩], [], [], [], 0⟩).1.status = 500
      ∧ (500 : Nat) ≠ 404 := by decide

/-- C5 (amended): a placement request referencing a product identifier
with no matching row is rejected — with status 404 (the decrement for
the missing identifier raises Prisma P2025 inside the transaction, which
rolls back, and asyncHandler answers 404) — and no mutation occurs,
PROVIDED every product row that is referenced passes the stock check; an
out-of-stock existing product takes precedence and turns the response
into the 500 Insufficient Stock error instead.  The line item is not
silently dropped either way. -/
theorem spec_C5_amended (u : Nat) (items : List OrderItemReq) (db : DB)
    (hmiss : ∃ it ∈ items, ∀ p ∈ db.products, p.id ≠ it.productId)
    (hadm : ∀ p ∈ db.products,
      (items.map (fun it => it.productId)).contains p.id = true →
      getQuantity items p.id ≤ p.stock) :
    postOrders none u items db = (.notFound, db)
      ∧ (postOrders none u items db).1.status = 404 := by
  have hcp : commitPhase none u items db = (.notFound, db) := by
    apply commitPhase_missing
    obtain ⟨it, hit, hall⟩ := hmiss
    refine ⟨it.productId, List.mem_map_of_mem _ hit, ?_⟩
    rw [List.any_eq_false]
    intro p hp
    simp [hall p hp]
  unfold postOrders
  rw [admissionOk_of items db hadm]
  simp only [Bool.not_true, Bool.false_eq_true, if_false]
  rw [hcp]
  exact ⟨rfl, rfl⟩

/-- Witness for C5 (amended) at a concrete input: product 1 exists with
ample stock, product 2 has no row; the placement answers 404 and the
state is unchanged. -/
theorem spec_C5_witness :
    postOrders none 7 [⟨1, 10, 3⟩, ⟨2, 4, 1⟩] ⟨[⟨1, 10, 5⟩], [], [], [], 0⟩
        = (.notFound, ⟨[⟨1, 10, 5⟩], [], [], [], 0⟩)
      ∧ (postOrders none 7 [⟨1, 10, 3⟩, ⟨2, 4, 1⟩]
          ⟨[⟨1, 10, 5⟩], [], [], [], 0⟩).1.status = 404 :=
  spec_C5_amended 7 [⟨1, 10, 3⟩, ⟨2, 4, 1⟩] ⟨[⟨1, 10, 5⟩], [], [], [], 0⟩
    (by decide) (by decide)

/-- C6: whenever fetch-by-identifier returns an order, the items it
returns are exactly the stored OrderItems of that order and the total it
returns is recomputed on that fetch as the sum over those items of
unitPrice times quantity; the model stores no total at all, so none is
read or trusted. -/
theorem spec_C6 (oid : Nat) (db : DB) (o : OrderRow) (its : List OrderItemRow)
    (t : Int) (h : getOrderById oid db = .ok o its t) :
    its = db.orderItems.filter (fun it => it.orderId == oid)
      ∧ t = (its.map (fun it => it.unitPrice * it.quantity)).sum := by
  unfold getOrderById at h
  cases hf : db.orders.find? (fun o2 => o2.id == oid) with
  | none =>
      rw [hf] at h
      exact absurd h (by simp)
  | some o2 =>
      rw [hf] at h
      simp only [GetOrderResult.ok.injEq] at h
      obtain ⟨h1, h2, h3⟩ := h
      refine ⟨h2.symm, ?_⟩
      rw [← h3, ← h2, foldl_total, zero_add]

/-- Witness for C6 at the claim's example: items (unitPrice 10,
quantity 2) and (unitPrice 5, quantity 1) yield total 25. -/
theorem spec_C6_witness :
    ([⟨1, 1, 10, 2⟩, ⟨1, 2, 5, 1⟩] : List OrderItemRow)
        = (⟨[], [⟨1, 5⟩], [⟨1, 1, 10, 2⟩, ⟨1, 2, 5, 1⟩], [], 2⟩ : DB).orderItems.filter
            (fun it => it.orderId == 1)
      ∧ (25 : Int)
        = (([⟨1, 1, 10, 2⟩, ⟨1, 2, 5, 1⟩] : List OrderItemRow).map
            (fun it => it.unitPrice * it.quantity)).sum :=
  spec_C6 1 ⟨[], [⟨1, 5⟩], [⟨1, 1, 10, 2⟩, ⟨1, 2, 5, 1⟩], [], 2⟩ ⟨1, 5⟩
    [⟨1, 1, 10, 2⟩, ⟨1, 2, 5, 1⟩] 25 (by decide)

/-- C7, as stated, fails on the code: the handler inserts the request's
line items verbatim (src/app.js:313-315) and never copies the resolved
product's price.  With product 1 priced 10 and a request line item whose
unitPrice field is 7, the stored OrderItem carries unitPrice 7, not the
product's 10: the snapshot is taken from the request payload, not from
the resolved product. -/
theorem spec_C7_counterexample :
    (postOrders none 1 [⟨1, 7, 1⟩] ⟨[⟨1, 10, 5⟩], [], [], [], 0⟩).1
        = .created ⟨0, 1⟩ [⟨0, 1, 7, 1⟩]
      ∧ ((⟨[⟨1, 10, 5⟩], [], [], [], 0⟩ : DB).products.find?
          (fun p => p.id == 1)).map (fun p => p.price) = some 10
      ∧ (7 : Int) ≠ 10 := by decide

/-- C7 (amended): each OrderItem's unit price is captured at admission
time from the REQUEST's line item (not from the resolved product) as a
snapshot: the created items carry exactly the request's unitPrice
values, and a later PATCH of any referenced Product's price leaves the
fetched order — its items and hence its derived total — unchanged. -/
theorem spec_C7_amended (u : Nat) (items : List OrderItemReq) (db : DB)
    (hex : ∀ it ∈ items, ∃ p ∈ db.products, p.id = it.productId)
    (hq : ∀ it ∈ items, ∀ p ∈ db.products, p.id = it.productId →
      it.quantity ≤ p.stock) :
    (postOrders none u items db).1
        = .created { id := db.nextOrderId, userId := u }
            (items.map (fun it =>
              { orderId := db.nextOrderId, productId := it.productId,
                unitPrice := it.unitPrice, quantity := it.quantity }))
      ∧ ∀ pid np,
          getOrderById db.nextOrderId
              (patchProductPrice pid np (postOrders none u items db).2)
            = getOrderById db.nextOrderId (postOrders none u items db).2 := by
  have h := postOrders_success u items db (any_of_exists items db hex)
    (adm_of_lineitems items db hq)
  exact ⟨by rw [h], fun pid np => getOrderById_patchPrice _ pid np _⟩

/-- Witness for C7 (amended) at the claim's example: items of unit price
10 (quantity 2) and 5 (quantity 1); after the placement, changing
product 1's price to 99 leaves the fetched order identical. -/
theorem spec_C7_witness :
    (postOrders none 3 [⟨1, 10, 2⟩, ⟨2, 5, 1⟩]
        ⟨[⟨1, 10, 20⟩, ⟨2, 5, 20⟩], [], [], [], 0⟩).1
        = .created { id := 0, userId := 3 }
            (([⟨1, 10, 2⟩, ⟨2, 5, 1⟩] : List OrderItemReq).map (fun it =>
              { orderId := 0, productId := it.productId,
                unitPrice := it.unitPrice, quantity := it.quantity }))
      ∧ getOrderById 0
            (patchProductPrice 1 99 (postOrders none 3 [⟨1, 10, 2⟩, ⟨2, 5, 1⟩]
              ⟨[⟨1, 10, 20⟩, ⟨2, 5, 20⟩], [], [], [], 0⟩).2)
          = getOrderById 0 (postOrders none 3 [⟨1, 10, 2⟩, ⟨2, 5, 1⟩]
              ⟨[⟨1, 10, 20⟩, ⟨2, 5, 20⟩], [], [], [], 0⟩).2 := by
  have h := spec_C7_amended 3 [⟨1, 10, 2⟩, ⟨2, 5, 1⟩]
    ⟨[⟨1, 10, 20⟩, ⟨2, 5, 20⟩], [], [], [], 0⟩ (by decide) (by decide)
  exact ⟨h.1, h.2 1 99⟩

/-- C8: fetching an order identifier with no stored order row fails with
status 404 (findUniqueOrThrow raises P2025, mapped by asyncHandler); the
read path is a pure function of the state, so no mutation occurs. -/
theorem spec_C8 (oid : Nat) (db : DB)
    (h : db.orders.find? (fun o => o.id == oid) = none) :
    getOrderById oid db = .notFound
      ∧ (getOrderById oid db).status = 404 := by
  unfold getOrderById
  rw [h]
  exact ⟨rfl, rfl⟩

/-- Witness for C8 at a concrete input: the empty state and identifier 1. -/
theorem spec_C8_witness :
    getOrderById 1 ⟨[], [], [], [], 0⟩ = .notFound
      ∧ (getOrderById 1 (⟨[], [], [], [], 0⟩ : DB)).status = 404 :=
  spec_C8 1 ⟨[], [], [], [], 0⟩ (by decide)

/-- C9: with duplicate line items for one product identifier, the
admission check and every decrement use the FIRST matching line item's
quantity (getQuantity, src/app.js:271-274), and the decrement is issued
once per occurrence (the map over productIds at src/app.js:297-307): the
hypotheses only require the first-occurrence quantities to be covered by
stock — later duplicate occurrences are never checked — and each
product's stock drops by (occurrences of its identifier) times (the
first matching line item's quantity), not by the sum of the listed
quantities. -/
theorem spec_C9 (u : Nat) (items : List OrderItemReq) (db : DB)
    (hex : ∀ it ∈ items, ∃ p ∈ db.products, p.id = it.productId)
    (hadm : ∀ p ∈ db.products,
      (items.map (fun it => it.productId)).contains p.id = true →
      getQuantity items p.id ≤ p.stock) :
    (∃ its, (postOrders none u items db).1
        = .created { id := db.nextOrderId, userId := u } its)
      ∧ (postOrders none u items db).2.products
          = db.products.map (fun p =>
              { p with stock := p.stock
                  - ((items.map (fun it => it.productId)).count p.id : Int)
                    * getQuantity items p.id }) := by
  have h := postOrders_success u items db (any_of_exists items db hex) hadm
  refine ⟨⟨_, by rw [h]⟩, ?_⟩
  rw [h]
  rfl

/-- Witness for C9 at a concrete input: product 1 with stock 5 and line
items (quantity 1) then (quantity 9) for the same product.  The first
occurrence's quantity 1 covers the check — the second item's 9 greater
than 5 is never examined — and the final stock is 5 - 2 x 1 = 3. -/
theorem spec_C9_witness :
    (∃ its, (postOrders none 6 [⟨1, 10, 1⟩, ⟨1, 10, 9⟩]
        ⟨[⟨1, 10, 5⟩], [], [], [], 0⟩).1 = .created { id := 0, userId := 6 } its)
      ∧ (postOrders none 6 [⟨1, 10, 1⟩, ⟨1, 10, 9⟩]
          ⟨[⟨1, 10, 5⟩], [], [], [], 0⟩).2.products
          = ([⟨1, 10, 5⟩] : List Product).map (fun p =>
              { p with stock := p.stock
                  - ((([⟨1, 10, 1⟩, ⟨1, 10, 9⟩] : List OrderItemReq).map
                      (fun it => it.productId)).count p.id : Int)
                    * getQuantity [⟨1, 10, 1⟩, ⟨1, 10, 9⟩] p.id }) :=
  spec_C9 6 [⟨1, 10, 1⟩, ⟨1, 10, 9⟩] ⟨[⟨1, 10, 5⟩], [], [], [], 0⟩
    (by decide) (by decide)

/-- C10: fetching a product by an identifier with no matching row answers
status 200 with an empty body (findUnique plus res.send of null), while
fetching a user or an order by a missing identifier answers 404
(findUniqueOrThrow raising P2025). -/
theorem spec_C10 (db : DB) (pid uid oid : Nat)
    (hp : db.products.find? (fun p => p.id == pid) = none)
    (hu : db.users.contains uid = false)
    (ho : db.orders.find? (fun o => o.id == oid) = none) :
    getProductById pid db = (200, none)
      ∧ getUserById uid db = 404
      ∧ getOrderById oid db = .notFound
      ∧ (getOrderById oid db).status = 404 := by
  refine ⟨?_, ?_, ?_, ?_⟩
  · unfold getProductById
    rw [hp]
  · unfold getUserById
    rw [hu]
    rfl
  · unfold getOrderById
    rw [ho]
  · unfold getOrderById
    rw [ho]
    rfl

/-- Witness for C10 at a concrete input: the empty state and
identifier 1 everywhere. -/
theorem spec_C10_witness :
    getProductById 1 ⟨[], [], [], [], 0⟩ = (200, none)
      ∧ getUserById 1 ⟨[], [], [], [], 0⟩ = 404
      ∧ getOrderById 1 ⟨[], [], [], [], 0⟩ = .notFound
      ∧ (getOrderById 1 (⟨[], [], [], [], 0⟩ : DB)).status = 404 :=
  spec_C10 ⟨[], [], [], [], 0⟩ 1 1 1 (by decide) (by decide) (by decide)

end Comazon
